import Mathlib

/-!
# Verification of the nw-publisher multi-relay reconciliation engine

Shallow embedding of the sync pipeline (`src/unnamed/part_009`, the refactored
sync command), the event utilities (`src/unnamed/part_012`), and the standalone
cleanup orphan analysis (`src/src/lib/cleanup-utils.mjs`).

Modelling conventions:
* A Nostr event is an immutable record.  The core code reads only indices 0
  and 1 of each tag, so a tag is modelled as a name/value pair of strings.
* The JSON codec is an external collaborator.  A site-index `content` string
  is either rejected by `JSON.parse` (modelled by `ContentData.raw`) or parses
  to an object with an optional `version` field and a `routes` map (modelled
  by `ContentData.obj`); this mirrors exactly the two code paths
  `try { JSON.parse } catch { skip }` and `content.version || 'unknown'`,
  `content.routes || {}`.
* JavaScript `Map`s (insertion ordered, unique keys) are modelled by
  association lists; `Set`s by insertion-ordered duplicate-free lists.
* The signer (`finalizeEvent` from nostr-tools) is an external collaborator
  producing, per the spec, a deterministic id from the signable fields; it is
  modelled by a concrete injective serialisation.  `Date.now()` readings are
  made an explicit `now` parameter.
-/

namespace NwPublisher

/-- Event kinds, from `src/lib/constants.mjs` (values as used throughout the
source: assets 1125, manifests 1126, site indexes 31126, entrypoints 11126,
deletion 5). -/
def ASSET_KIND : Nat := 1125
def MANIFEST_KIND : Nat := 1126
def SITE_INDEX_KIND : Nat := 31126
def ENTRYPOINT_KIND : Nat := 11126
def DELETION_KIND : Nat := 5

/-- A site-index content string as seen through `JSON.parse`: either a string
the parser rejects (`raw`), or a parsed object with an optional `version`
field and a `routes` map from route to manifest id (`obj`). -/
inductive ContentData where
  | raw (s : String)
  | obj (version : Option String) (routes : List (String × String))
deriving Repr, DecidableEq

/-- A Nostr event.  Tags are name/value pairs (the code reads only `t[0]` and
`t[1]`). -/
structure NEvent where
  id : String
  kind : Nat
  created_at : Nat
  tags : List (String × String)
  content : ContentData
  pubkey : String
deriving Repr, DecidableEq

/-- Look up a key in an association list (JS `Map.get`). -/
def alGet {β : Type} (l : List (String × β)) (k : String) : Option β :=
  match l.find? (fun p => p.1 == k) with
  | some p => some p.2
  | none => none

/-- Replace the value at every occurrence of a key (JS `Map.set` on an
existing key; keys are unique in every map the pipeline builds). -/
def alModify {β : Type} (l : List (String × β)) (k : String) (f : β → β) :
    List (String × β) :=
  l.map (fun p => if p.1 == k then (p.1, f p.2) else p)

/-- Insertion-ordered set insert (JS `Set.add`). -/
def insertIfAbsent (s : List String) (x : String) : List String :=
  if x ∈ s then s else s ++ [x]

/-- Sequentially `Set.add` every element of `xs`. -/
def dedupAppend (s : List String) (xs : List String) : List String :=
  xs.foldl insertIfAbsent s

/-- Value of the first tag with the given name (`tags.find(t => t[0] === n)?.[1]`). -/
def tagValue (e : NEvent) (n : String) : Option String :=
  match e.tags.find? (fun t => t.1 == n) with
  | some t => some t.2
  | none => none

/-- Ids carried by `e` tags (`tags.filter(t => t[0] === 'e').map(t => t[1])`). -/
def eTagIds (e : NEvent) : List String :=
  (e.tags.filter (fun t => t.1 == "e")).map (fun t => t.2)

/-- `String.prototype.split` on a one-character separator
(executable by structural recursion over the characters). -/
def splitCharGo (c : Char) : List Char → List Char → List String
  | [], acc => [String.mk acc.reverse]
  | x :: xs, acc =>
      if x = c then String.mk acc.reverse :: splitCharGo c xs []
      else splitCharGo c xs (x :: acc)

/-- `s.split(':')`. -/
def splitColon (s : String) : List String :=
  splitCharGo ':' s.toList []

/-- `aTag.split(':')[2]` applied to the first `a` tag of an entrypoint:
the target site-index d-tag, when present. -/
def epTargetDTag (e : NEvent) : Option String :=
  match tagValue e "a" with
  | some a => (splitColon a)[2]?
  | none => none

/-! ## Signer collaborator (spec section 6; `createDeletionEvent` from
`src/unnamed/part_012`) -/

/-- Serialise tags for id computation. -/
def serializeTags (tags : List (String × String)) : String :=
  String.join (tags.map (fun t => "[" ++ t.1 ++ "," ++ t.2 ++ "]"))

/-- Serialise content for id computation. -/
def serializeContent : ContentData → String
  | .raw s => "raw:" ++ s
  | .obj v routes =>
      "obj:" ++ (match v with | some s => s | none => "") ++ ";" ++
      serializeTags routes

/-- The signer's deterministic content-derived event id (spec: the id is a
deterministic hash of the signable fields; modelled by a concrete
serialisation). -/
def eventIdOf (kind created_at : Nat) (tags : List (String × String))
    (content : ContentData) (pubkey : String) : String :=
  "id(" ++ toString kind ++ "," ++ toString created_at ++ "," ++
    serializeTags tags ++ "," ++ serializeContent content ++ "," ++ pubkey ++ ")"

/-- Public key derivation (external collaborator `getPublicKeyFromPrivate`). -/
def getPublicKeyFromPrivate (skHex : String) : String :=
  "pub(" ++ skHex ++ ")"

/-- `createDeletionEvent` (src/unnamed/part_012 lines 127-139): a kind-5
tombstone with one `e` tag per target id, `content` the reason, and
`created_at` the current clock reading (`Math.floor(Date.now()/1000)`,
made an explicit `now` parameter). -/
def createDeletionEvent (eventIds : List String) (reason : String)
    (skHex : String) (now : Nat) : NEvent :=
  let pk := getPublicKeyFromPrivate skHex
  let tags := eventIds.map (fun i => ("e", i))
  { id := eventIdOf DELETION_KIND now tags (.raw reason) pk
    kind := DELETION_KIND
    created_at := now
    tags := tags
    content := .raw reason
    pubkey := pk }

/-! ## STEP A: `analyzeEntrypoints` (src/unnamed/part_009 lines 66-97) -/

structure EPAnalysis where
  entrypointsByRelay : List (String × List NEvent)
  newestEntrypoint : Option NEvent
  targetSiteIndexDTag : Option String
deriving Repr, DecidableEq

/-- `entrypoints.reduce((prev, curr) => curr.created_at > prev.created_at ? curr : prev)`. -/
def newestOf (e : NEvent) (rest : List NEvent) : NEvent :=
  rest.foldl (fun p c => if c.created_at > p.created_at then c else p) e

/-- One iteration of the relay loop in `analyzeEntrypoints`. -/
def epStep (acc : EPAnalysis) (entry : String × List NEvent) : EPAnalysis :=
  let eps := entry.2.filter (fun e => e.kind == ENTRYPOINT_KIND)
  match eps with
  | [] => acc
  | e0 :: rest =>
      let newest := newestOf e0 rest
      let acc := { acc with
        entrypointsByRelay := acc.entrypointsByRelay ++ [(entry.1, eps)] }
      let takeIt := match acc.newestEntrypoint with
        | none => true
        | some ne => newest.created_at > ne.created_at
      if takeIt then
        { acc with
          newestEntrypoint := some newest
          targetSiteIndexDTag :=
            match tagValue newest "a" with
            | some a => (splitColon a)[2]?
            | none => acc.targetSiteIndexDTag }
      else acc

/-- STEP A: find the newest entrypoint across all relays and the site-index
d-tag it addresses. -/
def analyzeEntrypoints (relayEvents : List (String × List NEvent)) : EPAnalysis :=
  relayEvents.foldl epStep
    { entrypointsByRelay := [], newestEntrypoint := none, targetSiteIndexDTag := none }

/-! ## STEP B: `analyzeSiteIndexVersions` (src/unnamed/part_009 lines 105-145) -/

/-- One site-index occurrence recorded in the version table. -/
structure SiteIndexOcc where
  relay : String
  event : NEvent
  dTag : Option String
  eventId : String
deriving Repr, DecidableEq

/-- Per-version data in the version table. -/
structure VersionInfo where
  version : String
  siteIndexes : List SiteIndexOcc
  routes : List (String × String)
  manifestIds : List String
deriving Repr, DecidableEq

/-- Process one site-index event of one relay in `analyzeSiteIndexVersions`.
An unparseable content (`ContentData.raw`) contributes nothing. -/
def siStep (relay : String) (vm : List (String × VersionInfo)) (si : NEvent) :
    List (String × VersionInfo) :=
  match si.content with
  | .raw _ => vm
  | .obj ver routes =>
      let version := ver.getD "unknown"
      let dTag := tagValue si "d"
      let occ : SiteIndexOcc :=
        { relay := relay, event := si, dTag := dTag, eventId := si.id }
      let vm :=
        if (alGet vm version).isSome then vm
        else vm ++ [(version,
          { version := version, siteIndexes := [], routes := routes,
            manifestIds := [] })]
      alModify vm version (fun vi =>
        { vi with
          siteIndexes := vi.siteIndexes ++ [occ]
          manifestIds := dedupAppend vi.manifestIds (routes.map (fun r => r.2)) })

/-- STEP B: group every site-index event on every relay by parsed version. -/
def analyzeSiteIndexVersions (relayEvents : List (String × List NEvent)) :
    List (String × VersionInfo) :=
  relayEvents.foldl
    (fun vm entry =>
      (entry.2.filter (fun e => e.kind == SITE_INDEX_KIND)).foldl
        (siStep entry.1) vm)
    []

/-! ## STEP C: `analyzeVersionCompleteness` (src/unnamed/part_009 lines 156-245) -/

/-- Per-(version, relay) status record. -/
structure VStatus where
  hasSiteIndex : Bool
  manifestsRequired : Nat
  manifestsPresent : Nat
  assetsRequired : Nat
  assetsPresent : Nat
  missingManifests : List String
  missingAssets : List String
deriving Repr, DecidableEq

/-- `events.find(e => e.kind === MANIFEST && getEventId(e) === manifestId)`. -/
def findManifest (events : List NEvent) (mid : String) : Option NEvent :=
  events.find? (fun e => e.kind == MANIFEST_KIND && e.id == mid)

/-- Whether the exact manifest event id is present on the relay. -/
def manifestFound (events : List NEvent) (mid : String) : Bool :=
  (findManifest events mid).isSome

/-- The manifest events found on the relay, in required-id order
(the `presentManifests` map of the source). -/
def presentManifestEvents (events : List NEvent) (mids : List String) :
    List NEvent :=
  mids.filterMap (findManifest events)

/-- The `requiredAssets` set: every `e`-tag id of every present manifest,
insertion ordered, duplicates dropped. -/
def requiredAssetsOf (events : List NEvent) (mids : List String) : List String :=
  dedupAppend [] ((presentManifestEvents events mids).map eTagIds).flatten

/-- `events.some(e => e.kind === ASSET && getEventId(e) === assetId)`. -/
def assetFound (events : List NEvent) (aid : String) : Bool :=
  events.any (fun e => e.kind == ASSET_KIND && e.id == aid)

/-- The status computed by the body of the (version, relay) loop of
`analyzeVersionCompleteness`: when the site index is absent the loop
`continue`s with the freshly initialised record, otherwise it counts present
and missing manifests and the assets required by the present manifests. -/
def versionStatusOn (vi : VersionInfo) (relay : String)
    (events : List NEvent) : VStatus :=
  let hasSI := vi.siteIndexes.any (fun si => si.relay == relay)
  if hasSI then
    let req := requiredAssetsOf events vi.manifestIds
    { hasSiteIndex := true
      manifestsRequired := vi.manifestIds.length
      manifestsPresent := vi.manifestIds.countP (fun m => manifestFound events m)
      assetsRequired := req.length
      assetsPresent := req.countP (fun a => assetFound events a)
      missingManifests := vi.manifestIds.filter (fun m => !manifestFound events m)
      missingAssets := req.filter (fun a => !assetFound events a) }
  else
    { hasSiteIndex := false
      manifestsRequired := vi.manifestIds.length
      manifestsPresent := 0
      assetsRequired := 0
      assetsPresent := 0
      missingManifests := []
      missingAssets := [] }

/-- `isComplete` of the source: all required manifests and all required assets
are present (evaluated only when the site index is present). -/
def statusComplete (s : VStatus) : Bool :=
  s.manifestsPresent == s.manifestsRequired && s.assetsPresent == s.assetsRequired

/-- A version is classified complete on a relay iff its site index is there
and the status counts match (`completeOn` membership). -/
def completeOnRelay (vi : VersionInfo) (relay : String)
    (events : List NEvent) : Bool :=
  (vi.siteIndexes.any (fun si => si.relay == relay)) &&
    statusComplete (versionStatusOn vi relay events)

/-- Per-version classification lists. -/
structure Completeness where
  completeOn : List String
  partialOn : List String
  missingOn : List String
deriving Repr, DecidableEq

/-- Events queried from a relay (`relayEvents.get(relay) || []`). -/
def eventsOn (relayEvents : List (String × List NEvent)) (relay : String) :
    List NEvent :=
  (alGet relayEvents relay).getD []

/-- STEP C: the per-relay per-version status table and the per-version
classification (`completeOn` / `partialOn` / `missingOn` are pushed in relay
order, statuses in version order, exactly as the nested loops do). -/
def analyzeVersionCompleteness (relayEvents : List (String × List NEvent))
    (versionMap : List (String × VersionInfo)) (relays : List String) :
    List (String × List (String × VStatus)) × List (String × Completeness) :=
  let rvs := relays.map (fun r =>
    (r, versionMap.map (fun p => (p.1, versionStatusOn p.2 r (eventsOn relayEvents r)))))
  let vc := versionMap.map (fun p =>
    (p.1,
      { completeOn := relays.filter (fun r => completeOnRelay p.2 r (eventsOn relayEvents r))
        partialOn := relays.filter (fun r =>
          p.2.siteIndexes.any (fun si => si.relay == r) &&
          !statusComplete (versionStatusOn p.2 r (eventsOn relayEvents r)))
        missingOn := relays.filter (fun r =>
          !(p.2.siteIndexes.any (fun si => si.relay == r))) }))
  (rvs, vc)

/-! ## STEP D: `identifySourceRelays` (src/unnamed/part_009 lines 254-268) -/

/-- STEP D: the first complete relay becomes the source; an orphaned version
(no complete relay) gets `none`. -/
def identifySourceRelays (vc : List (String × Completeness)) :
    List (String × Option String) :=
  vc.map (fun p => (p.1, p.2.completeOn.head?))

/-! ## STEP E & F: `buildSyncPlan` (src/unnamed/part_009 lines 285-424) -/

/-- Per-relay plan record. -/
structure RelayPlan where
  deleteOrphanedAssets : List NEvent := []
  deleteOrphanedManifests : List NEvent := []
  deleteIncompleteSiteIndexes : List NEvent := []
  deleteOldEntrypoints : List NEvent := []
  syncAssets : List NEvent := []
  syncManifests : List NEvent := []
  syncSiteIndexes : List NEvent := []
  syncNewEntrypoint : Option NEvent := none
deriving Repr, DecidableEq

def emptyPlan : RelayPlan := {}

/-- Initialise the plan map with an empty plan per relay. -/
def initPlans (relays : List String) : List (String × RelayPlan) :=
  relays.map (fun r => (r, emptyPlan))

/-- Collect the version's manifests and (duplicate-free) assets from the
source relay's events, in the nested-loop order of the source. -/
def collectVersionEvents (sourceEvents : List NEvent) (mids : List String) :
    List NEvent × List NEvent :=
  mids.foldl
    (fun acc mid =>
      match findManifest sourceEvents mid with
      | none => acc
      | some m =>
          let assets := (eTagIds m).foldl
            (fun assets aid =>
              match sourceEvents.find? (fun e => e.kind == ASSET_KIND && e.id == aid) with
              | none => assets
              | some asset =>
                  if assets.any (fun a => a.id == aid) then assets
                  else assets ++ [asset]) acc.2
          (acc.1 ++ [m], assets))
    ([], [])

/-- The per-target-relay update of the version loop: a relay without the site
index receives the full set; a relay with the site index but missing pieces
receives only the missing manifests and assets. -/
def versionTargetUpdate (statusOpt : Option VStatus) (sourceSiteIndex : NEvent)
    (versionManifests versionAssets : List NEvent) (plan : RelayPlan) : RelayPlan :=
  match statusOpt with
  | none =>
      { plan with
        syncSiteIndexes := plan.syncSiteIndexes ++ [sourceSiteIndex]
        syncManifests := plan.syncManifests ++ versionManifests
        syncAssets := plan.syncAssets ++ versionAssets }
  | some status =>
      if !status.hasSiteIndex then
        { plan with
          syncSiteIndexes := plan.syncSiteIndexes ++ [sourceSiteIndex]
          syncManifests := plan.syncManifests ++ versionManifests
          syncAssets := plan.syncAssets ++ versionAssets }
      else if !status.missingManifests.isEmpty || !status.missingAssets.isEmpty then
        { plan with
          syncManifests := plan.syncManifests ++
            versionManifests.filter (fun m => status.missingManifests.contains m.id)
          syncAssets := plan.syncAssets ++
            versionAssets.filter (fun a => status.missingAssets.contains a.id) }
      else plan

/-- Status of a version on a relay from the status table. -/
def statusOf (relayVersionStatus : List (String × List (String × VStatus)))
    (relay version : String) : Option VStatus :=
  match alGet relayVersionStatus relay with
  | some m => alGet m version
  | none => none

/-- Process one version of the version loop of `buildSyncPlan`:
an orphaned version (no source relay) has its site index scheduled for
deletion wherever it exists (manifests and assets are a TODO in the source);
a version with a source is diffed against every other relay. -/
def versionStep (relayEvents : List (String × List NEvent))
    (sourceRelays : List (String × Option String))
    (relayVersionStatus : List (String × List (String × VStatus)))
    (relays : List String)
    (plans : List (String × RelayPlan)) (entry : String × VersionInfo) :
    List (String × RelayPlan) :=
  let version := entry.1
  let vi := entry.2
  match (alGet sourceRelays version).getD none with
  | none =>
      relays.foldl
        (fun plans relay =>
          match statusOf relayVersionStatus relay version with
          | some status =>
              if status.hasSiteIndex then
                match vi.siteIndexes.find? (fun si => si.relay == relay) with
                | some si =>
                    alModify plans relay (fun plan =>
                      { plan with deleteIncompleteSiteIndexes :=
                          plan.deleteIncompleteSiteIndexes ++ [si.event] })
                | none => plans
              else plans
          | none => plans)
        plans
  | some sourceRelay =>
      let sourceEvents := eventsOn relayEvents sourceRelay
      match vi.siteIndexes.find? (fun si => si.relay == sourceRelay) with
      | none => plans
      | some sourceSiteIndex =>
          let collected := collectVersionEvents sourceEvents vi.manifestIds
          relays.foldl
            (fun plans targetRelay =>
              if targetRelay == sourceRelay then plans
              else
                alModify plans targetRelay
                  (versionTargetUpdate (statusOf relayVersionStatus targetRelay version)
                    sourceSiteIndex.event collected.1 collected.2))
            plans
  /- the source pushes sync events only onto relays other than the source -/

/-- The version loop of `buildSyncPlan` (STEP E). -/
def versionPass (relayEvents : List (String × List NEvent))
    (versionMap : List (String × VersionInfo))
    (sourceRelays : List (String × Option String))
    (relayVersionStatus : List (String × List (String × VStatus)))
    (relays : List String)
    (plans : List (String × RelayPlan)) : List (String × RelayPlan) :=
  versionMap.foldl (versionStep relayEvents sourceRelays relayVersionStatus relays) plans

/-- The per-relay entrypoint repair of STEP F: collect stale entrypoints into
one tombstone, and schedule the globally newest entrypoint where no
entrypoint with the target key is live. -/
def entrypointUpdate (epa : EPAnalysis) (ne : NEvent) (tgt : String)
    (skHex : String) (now : Nat) (relay : String) (plan : RelayPlan) : RelayPlan :=
  let reps := (alGet epa.entrypointsByRelay relay).getD []
  let oldIds := (reps.filter (fun e => !(epTargetDTag e == some tgt))).map (fun e => e.id)
  let plan :=
    if oldIds.isEmpty then plan
    else
      { plan with deleteOldEntrypoints := plan.deleteOldEntrypoints ++
          [createDeletionEvent oldIds
            "Replacing old entrypoint with updated version" skHex now] }
  let hasCorrect := reps.any (fun e => epTargetDTag e == some tgt)
  if hasCorrect then plan else { plan with syncNewEntrypoint := some ne }

/-- STEP F of `buildSyncPlan`: entrypoint repair over every relay's plan. -/
def entrypointPass (epa : EPAnalysis) (skHex : String) (now : Nat)
    (plans : List (String × RelayPlan)) : List (String × RelayPlan) :=
  match epa.newestEntrypoint, epa.targetSiteIndexDTag with
  | some ne, some tgt =>
      plans.map (fun p => (p.1, entrypointUpdate epa ne tgt skHex now p.1 p.2))
  | _, _ => plans

/-- `buildSyncPlan` (STEP E and F). -/
def buildSyncPlan (relayEvents : List (String × List NEvent))
    (versionMap : List (String × VersionInfo))
    (sourceRelays : List (String × Option String))
    (epa : EPAnalysis)
    (relayVersionStatus : List (String × List (String × VStatus)))
    (relays : List String) (skHex : String) (now : Nat) :
    List (String × RelayPlan) :=
  entrypointPass epa skHex now
    (versionPass relayEvents versionMap sourceRelays relayVersionStatus relays
      (initPlans relays))

/-- The pure core of `buildEventMap`: run the whole analysis pipeline on the
queried per-relay event sets and build the sync plan. -/
def buildPlanFromEvents (relayEvents : List (String × List NEvent))
    (relays : List String) (skHex : String) (now : Nat) :
    List (String × RelayPlan) :=
  let epa := analyzeEntrypoints relayEvents
  let versionMap := analyzeSiteIndexVersions relayEvents
  let anal := analyzeVersionCompleteness relayEvents versionMap relays
  let sources := identifySourceRelays anal.2
  buildSyncPlan relayEvents versionMap sources epa anal.1 relays skHex now

/-! ## Plan executor (`executeSyncPlan`, src/unnamed/part_009 lines 831-954) -/

/-- All deletion events of a plan, in the execution order of the source. -/
def planDeletions (p : RelayPlan) : List NEvent :=
  p.deleteOrphanedAssets ++ p.deleteOrphanedManifests ++
    p.deleteIncompleteSiteIndexes ++ p.deleteOldEntrypoints

/-- All publication events of a plan, in the pre-sort order of the source. -/
def planSyncs (p : RelayPlan) : List NEvent :=
  p.syncAssets ++ p.syncManifests ++ p.syncSiteIndexes ++
    (match p.syncNewEntrypoint with | some e => [e] | none => [])

/-- The layer number used by the publish sort
(asset 1, manifest 2, site index 3, entrypoint 4, anything else 99). -/
def kindOrderOf (kind : Nat) : Nat :=
  if kind == ASSET_KIND then 1
  else if kind == MANIFEST_KIND then 2
  else if kind == SITE_INDEX_KIND then 3
  else if kind == ENTRYPOINT_KIND then 4
  else 99

/-- Stable insert for the publish sort. -/
def insertByKind (e : NEvent) : List NEvent → List NEvent
  | [] => [e]
  | x :: xs =>
      if kindOrderOf x.kind < kindOrderOf e.kind then x :: insertByKind e xs
      else e :: x :: xs

/-- The stable comparison sort `events.sort((a, b) => kindOrder[a.kind] -
kindOrder[b.kind])` applied before publishing. -/
def sortEventsForPublish : List NEvent → List NEvent
  | [] => []
  | x :: xs => insertByKind x (sortEventsForPublish xs)

/-- One network action issued to a relay during plan execution. -/
inductive RelayAction where
  | deleteEvt (e : NEvent)
  | publishEvt (e : NEvent)
deriving Repr, DecidableEq

def RelayAction.isDelete : RelayAction → Bool
  | .deleteEvt _ => true
  | .publishEvt _ => false

def RelayAction.isPublish : RelayAction → Bool
  | .deleteEvt _ => false
  | .publishEvt _ => true

/-- The sequence of network actions `executeSyncPlan` issues against one
relay: nothing when the plan is a no-op or the connection fails; otherwise
every deletion (each awaited, success or failure observed) followed by every
publication in layer-sorted order. -/
def relayActions (p : RelayPlan) (connOk : Bool) : List RelayAction :=
  let dels := planDeletions p
  let syncs := planSyncs p
  if dels.isEmpty && syncs.isEmpty then []
  else if connOk then
    dels.map RelayAction.deleteEvt ++
      (sortEventsForPublish syncs).map RelayAction.publishEvt
  else []

/-- Aggregate statistics returned by `executeSyncPlan`. -/
structure SyncStats where
  totalDeleted : Nat
  totalPublished : Nat
  totalFailed : Nat
  relaysUpdated : Nat
deriving Repr, DecidableEq

/-- One iteration of the relay loop of `executeSyncPlan`: skip no-op relays;
on connection failure count the whole delta as failed; otherwise count each
publish acknowledgement or rejection individually. -/
def execRelayStep (plans : List (String × RelayPlan)) (conn : String → Bool)
    (pub : String → NEvent → Bool) (r : String) (s : SyncStats) : SyncStats :=
  match alGet plans r with
  | none => s
  | some p =>
      let dels := planDeletions p
      let syncs := planSyncs p
      if dels.isEmpty && syncs.isEmpty then s
      else if conn r then
        let deleted := dels.countP (fun e => pub r e)
        let published := (sortEventsForPublish syncs).countP (fun e => pub r e)
        { totalDeleted := s.totalDeleted + deleted
          totalPublished := s.totalPublished + published
          totalFailed := s.totalFailed + (dels.length - deleted) +
            (syncs.length - published)
          relaysUpdated := s.relaysUpdated +
            (if deleted > 0 || published > 0 then 1 else 0) }
      else
        { s with totalFailed := s.totalFailed + dels.length + syncs.length }

/-- The relay loop of `executeSyncPlan`, threading the mutable stats. -/
def executeSyncPlanGo (plans : List (String × RelayPlan)) (conn : String → Bool)
    (pub : String → NEvent → Bool) : List String → SyncStats → SyncStats
  | [], s => s
  | r :: rest, s =>
      executeSyncPlanGo plans conn pub rest (execRelayStep plans conn pub r s)

/-- `executeSyncPlan`: apply the plan to each relay in turn, aggregating
statistics.  `conn` tells whether connecting to a relay succeeds and `pub`
whether an individual publish is acknowledged. -/
def executeSyncPlan (plans : List (String × RelayPlan)) (relays : List String)
    (conn : String → Bool) (pub : String → NEvent → Bool) : SyncStats :=
  executeSyncPlanGo plans conn pub relays
    { totalDeleted := 0, totalPublished := 0, totalFailed := 0, relaysUpdated := 0 }

/-- `queryAllEvents` (src/unnamed/part_009 lines 38-57): the relay's answer on
success, the empty list when connecting or querying throws. -/
def queryAllEvents (queryResult : Option (List NEvent)) : List NEvent :=
  match queryResult with
  | some events => events
  | none => []

/-! ## Standalone cleanup (`src/src/lib/cleanup-utils.mjs`) -/

/-- Result of `analyzeOrphans`. -/
structure OrphanAnalysis where
  assets : List NEvent
  manifests : List NEvent
  indexes : List NEvent
deriving Repr, DecidableEq

/-- The site index referenced by one entrypoint's `a` tag (matching author
and `d` tag), as `analyzeOrphans` resolves it. -/
def referencedIndexOf (siteIndexes : List NEvent) (entrypoint : NEvent) :
    Option NEvent :=
  match tagValue entrypoint "a" with
  | none => none
  | some a =>
      let parts := splitColon a
      siteIndexes.find? (fun e =>
        parts[1]? == some e.pubkey &&
        e.tags.any (fun t => t.1 == "d" && some t.2 == parts[2]?))

/-- `analyzeOrphans` of `src/src/lib/cleanup-utils.mjs` (lines 46-141): walk
the graph top-down on one relay's events.  Entrypoints mark their target site
index referenced; a referenced site index (or every site index if there is no
entrypoint) marks the ids in its `e` tags as referenced manifests; a
referenced manifest (or every manifest if there is no site index) marks the
ids in its `e` tags as referenced assets.  Events outside the reference sets
are the orphans (site indexes only when an entrypoint exists). -/
def analyzeOrphans (events : List NEvent) : OrphanAnalysis :=
  let assetsK := events.filter (fun e => e.kind == ASSET_KIND)
  let manifestsK := events.filter (fun e => e.kind == MANIFEST_KIND)
  let indexesK := events.filter (fun e => e.kind == SITE_INDEX_KIND)
  let entrypointsK := events.filter (fun e => e.kind == ENTRYPOINT_KIND)
  let referencedIndexes : List String :=
    entrypointsK.foldl
      (fun acc ep =>
        match referencedIndexOf indexesK ep with
        | some idx => insertIfAbsent acc idx.id
        | none => acc) []
  let referencedManifests : List String :=
    indexesK.foldl
      (fun acc idx =>
        if referencedIndexes.contains idx.id || entrypointsK.isEmpty then
          dedupAppend acc (eTagIds idx)
        else acc) []
  let _referencedAssets : List String :=
    manifestsK.foldl
      (fun acc m =>
        if referencedManifests.contains m.id || indexesK.isEmpty then
          dedupAppend acc (eTagIds m)
        else acc) []
  { assets := assetsK.filter (fun e => !_referencedAssets.contains e.id)
    manifests := manifestsK.filter (fun e => !referencedManifests.contains e.id)
    indexes := indexesK.filter (fun e =>
      !referencedIndexes.contains e.id && !entrypointsK.isEmpty) }

/-- Outcome of one tombstone batch publish inside `deleteEventsFromRelay`:
acknowledged, rejected by the relay (caught per batch), or an exception
outside the inner try (e.g. tombstone construction), which aborts the loop
into the outer catch. -/
inductive BatchOutcome where
  | ok
  | pubFail
  | crash
deriving Repr, DecidableEq

/-- The batch loop of `deleteEventsFromRelay`: batches of 10 ids, one
tombstone per batch; `total` is the full id count, used by the outer catch
(`failed = eventIds.length - published`). -/
def deleteBatchesGo (outcome : Nat → BatchOutcome) (total : Nat) :
    List String → Nat → Nat → Nat → Nat × Nat
  | [], _, published, failed => (published, failed)
  | h :: t, k, published, failed =>
      let batch := (h :: t).take 10
      let rest := (h :: t).drop 10
      match outcome k with
      | .ok => deleteBatchesGo outcome total rest (k + 1)
          (published + batch.length) failed
      | .pubFail => deleteBatchesGo outcome total rest (k + 1)
          published (failed + batch.length)
      | .crash => (published, total - published)
  termination_by ids _ _ _ => ids.length
  decreasing_by
    all_goals simp only [List.length_drop, List.length_cons]; omega

/-- `deleteEventsFromRelay` (src/src/lib/cleanup-utils.mjs lines 151-186):
an empty id list answers `(0, 0)` at once; a connection failure answers
`(0, eventIds.length)`; otherwise ids are deleted in batches of 10 whose
individual outcomes are counted, any stray exception landing in the outer
catch which tops `failed` up to `eventIds.length - published`. -/
def deleteEventsFromRelay (eventIds : List String) (connOk : Bool)
    (outcome : Nat → BatchOutcome) : Nat × Nat :=
  if eventIds.isEmpty then (0, 0)
  else if connOk then deleteBatchesGo outcome eventIds.length eventIds 0 0 0
  else (0, eventIds.length)

/-! ## Concrete fixtures

Small event sets exercising the pipeline, used by the counterexamples and by
witnesses.  `rev1` is Scenario 2 of the spec (relay A complete with three
assets, one manifest, one site index; relay B holding only the assets);
`rev2` is an orphaned version (site index and one of two manifests on relay
A, nothing complete anywhere); `rev3` is an entrypoint whose target site
index exists nowhere; `rev7` has one stale and one current entrypoint. -/

def pkE : String := "pk"

def mkAsset (i : String) : NEvent :=
  { id := i, kind := ASSET_KIND, created_at := 1, tags := [("x", "h" ++ i)],
    content := .raw ("data" ++ i), pubkey := pkE }

def asset1 : NEvent := mkAsset "a1"
def asset2 : NEvent := mkAsset "a2"
def asset3 : NEvent := mkAsset "a3"

def manifest1 : NEvent :=
  { id := "m1", kind := MANIFEST_KIND, created_at := 2,
    tags := [("e", "a1"), ("e", "a2"), ("e", "a3")],
    content := .raw "mani", pubkey := pkE }

def siteIndex1 : NEvent :=
  { id := "si1", kind := SITE_INDEX_KIND, created_at := 3, tags := [("d", "d1")],
    content := .obj (some "1.0.0") [("/", "m1")], pubkey := pkE }

def rev1 : List (String × List NEvent) :=
  [("wss://A", [asset1, asset2, asset3, manifest1, siteIndex1]),
   ("wss://B", [asset1, asset2, asset3])]

def rel1 : List String := ["wss://A", "wss://B"]

def asset9 : NEvent := mkAsset "a9"

def manifest9 : NEvent :=
  { id := "m9", kind := MANIFEST_KIND, created_at := 2, tags := [("e", "a9")],
    content := .raw "m9c", pubkey := pkE }

def siteIndex9 : NEvent :=
  { id := "si9", kind := SITE_INDEX_KIND, created_at := 3, tags := [("d", "d9")],
    content := .obj (some "0.9.0") [("/", "m9"), ("/x", "mX")], pubkey := pkE }

def rev2 : List (String × List NEvent) :=
  [("wss://A", [siteIndex9, manifest9, asset9]), ("wss://B", [])]

def entry1 : NEvent :=
  { id := "e1", kind := ENTRYPOINT_KIND, created_at := 10,
    tags := [("a", "31126:pk:x")], content := .raw "", pubkey := pkE }

def rev3 : List (String × List NEvent) :=
  [("wss://A", [entry1]), ("wss://B", [])]

def entry2 : NEvent :=
  { id := "e2", kind := ENTRYPOINT_KIND, created_at := 20,
    tags := [("a", "31126:pk:y")], content := .raw "", pubkey := pkE }

def rev7 : List (String × List NEvent) := [("wss://A", [entry1, entry2])]

def entry8 : NEvent :=
  { id := "e8", kind := ENTRYPOINT_KIND, created_at := 10,
    tags := [("a", "31126:pk:d1")], content := .raw "", pubkey := pkE }

/-! ## Claim C1 -/

/-- C1, counterexample.  On Scenario 2's analyzer output (relay A the
complete source of version 1.0.0, relay B holding asset `asset1` but not the
site index), the plan built for B schedules `asset1` — an asset already
present on B — for publication, refuting "assets already present on B are
never scheduled for republication (B receives the missing manifest and
site-index only)". -/
theorem claim1_counterexample :
    alGet (identifySourceRelays
        (analyzeVersionCompleteness rev1 (analyzeSiteIndexVersions rev1) rel1).2)
        "1.0.0" = some (some "wss://A") ∧
    asset1 ∈ eventsOn rev1 "wss://B" ∧
    alGet (buildPlanFromEvents rev1 rel1 "sk" 100) "wss://B" =
      some { syncAssets := [asset1, asset2, asset3],
             syncManifests := [manifest1], syncSiteIndexes := [siteIndex1] } ∧
    asset1 ∈ [asset1, asset2, asset3] := by
  refine ⟨by decide, by decide, by decide, by decide⟩

/-- C1, amended.  A relay that lacks the version's site-index event is
classified "version completely missing" by the Plan Builder, which therefore
schedules the full set — site index, manifests, and every asset of the
version, including assets the relay already holds — for publication to it;
only a relay that holds the site index but misses some manifests or assets
receives just the missing pieces.  The plan for the source relay A is empty.
Proved on Scenario 2's input: B receives the full set, A's plan is empty. -/
theorem claim1_amended_plan :
    alGet (buildPlanFromEvents rev1 rel1 "sk" 100) "wss://A" = some emptyPlan ∧
    alGet (buildPlanFromEvents rev1 rel1 "sk" 100) "wss://B" =
      some { syncAssets := [asset1, asset2, asset3],
             syncManifests := [manifest1], syncSiteIndexes := [siteIndex1] } := by
  refine ⟨by decide, by decide⟩

/-! ## Claim C2 -/

/-- A plan that publishes nothing and deletes nothing except (possibly)
site indexes. -/
def syncFree (p : RelayPlan) : Prop :=
  p.syncAssets = [] ∧ p.syncManifests = [] ∧ p.syncSiteIndexes = [] ∧
  p.syncNewEntrypoint = none ∧ p.deleteOrphanedAssets = [] ∧
  p.deleteOrphanedManifests = [] ∧ p.deleteOldEntrypoints = []

theorem foldl_preserve {α β : Type} {P : α → Prop} {step : α → β → α}
    (hstep : ∀ acc x, P acc → P (step acc x)) :
    ∀ (l : List β) (init : α), P init → P (l.foldl step init) := by
  intro l
  induction l with
  | nil => intro init h; exact h
  | cons x xs ih => intro init h; exact ih _ (hstep init x h)

theorem alGet_mem {β : Type} {l : List (String × β)} {k : String} {v : β}
    (h : alGet l k = some v) : ∃ q ∈ l, q.2 = v := by
  unfold alGet at h
  cases hfind : l.find? (fun p => p.1 == k) with
  | none => rw [hfind] at h; exact absurd h (by simp)
  | some q =>
      rw [hfind] at h
      exact ⟨q, List.mem_of_find?_eq_some hfind, by injection h⟩

theorem alModify_preserve {Q : RelayPlan → Prop}
    {plans : List (String × RelayPlan)} {k : String} {f : RelayPlan → RelayPlan}
    (hf : ∀ p, Q p → Q (f p)) (h : ∀ q ∈ plans, Q q.2) :
    ∀ q ∈ alModify plans k f, Q q.2 := by
  intro q hq
  unfold alModify at hq
  obtain ⟨q0, hq0, hmap⟩ := List.mem_map.mp hq
  by_cases hk : (q0.1 == k) = true
  · rw [if_pos hk] at hmap; exact hmap ▸ hf _ (h q0 hq0)
  · rw [if_neg hk] at hmap; exact hmap ▸ h q0 hq0

theorem versionStep_syncFree (relayEvents : List (String × List NEvent))
    (sourceRelays : List (String × Option String))
    (rvs : List (String × List (String × VStatus))) (relays : List String)
    (horphan : ∀ q ∈ sourceRelays, q.2 = (none : Option String))
    (plans : List (String × RelayPlan)) (entry : String × VersionInfo)
    (h : ∀ q ∈ plans, syncFree q.2) :
    ∀ q ∈ versionStep relayEvents sourceRelays rvs relays plans entry, syncFree q.2 := by
  unfold versionStep
  have hsrc : (alGet sourceRelays entry.1).getD none = none := by
    cases hget : alGet sourceRelays entry.1 with
    | none => rfl
    | some o =>
        obtain ⟨q, hq, hqv⟩ := alGet_mem hget
        simp [hqv ▸ horphan q hq]
  dsimp only
  rw [hsrc]
  refine foldl_preserve (P := fun pl => ∀ q ∈ pl, syncFree q.2) ?_ relays plans h
  intro acc relay hacc
  cases statusOf rvs relay entry.1 with
  | none => exact hacc
  | some status =>
      by_cases hsi : status.hasSiteIndex
      · simp only [hsi, if_true]
        cases entry.2.siteIndexes.find? (fun si => si.relay == relay) with
        | none => simpa using hacc
        | some si =>
            refine alModify_preserve ?_ hacc
            intro p hp
            unfold syncFree at hp ⊢
            simpa using hp
      · simp only [hsi, Bool.false_eq_true, if_false]
        simpa using hacc

/-- C2, counterexample.  Version 0.9.0 has no complete source (`identifySourceRelays`
maps it to `none`); relay A holds its manifest `manifest9` (an event uniquely
belonging to that version), yet the plan for A deletes only the site index —
`deleteOrphanedManifests` and `deleteOrphanedAssets` stay empty (the source
carries a literal `TODO: Also delete manifests and assets for orphaned
versions`), refuting "schedules ... the manifests and assets uniquely
belonging to it ... for deletion". -/
theorem claim2_counterexample :
    alGet (identifySourceRelays
        (analyzeVersionCompleteness rev2 (analyzeSiteIndexVersions rev2) rel1).2)
        "0.9.0" = some none ∧
    manifest9 ∈ eventsOn rev2 "wss://A" ∧
    alGet (buildPlanFromEvents rev2 rel1 "sk" 100) "wss://A" =
      some { deleteIncompleteSiteIndexes := [siteIndex9] } := by
  refine ⟨by decide, by decide, by decide⟩

/-- C2, amended.  When no version has a source (every entry of the source map
is `none`) and there is no entrypoint to repair, the Plan Builder schedules
nothing for publication to any relay and deletes no manifests or assets
(their deletion is an unimplemented TODO); only site indexes can appear in
the deletion lists (and do, exactly where the orphaned site index exists, as
the witness's input shows). -/
theorem claim2_amended (relayEvents : List (String × List NEvent))
    (versionMap : List (String × VersionInfo))
    (sourceRelays : List (String × Option String)) (epa : EPAnalysis)
    (rvs : List (String × List (String × VStatus))) (relays : List String)
    (skHex : String) (now : Nat)
    (horphan : ∀ q ∈ sourceRelays, q.2 = (none : Option String))
    (hep : epa.newestEntrypoint = none) (r : String) (p : RelayPlan)
    (hp : alGet (buildSyncPlan relayEvents versionMap sourceRelays epa rvs
        relays skHex now) r = some p) :
    p.syncAssets = [] ∧ p.syncManifests = [] ∧ p.syncSiteIndexes = [] ∧
    p.syncNewEntrypoint = none ∧ p.deleteOrphanedAssets = [] ∧
    p.deleteOrphanedManifests = [] := by
  have hpass : entrypointPass epa skHex now
      (versionPass relayEvents versionMap sourceRelays rvs relays (initPlans relays)) =
      versionPass relayEvents versionMap sourceRelays rvs relays (initPlans relays) := by
    unfold entrypointPass
    rw [hep]
  unfold buildSyncPlan at hp
  rw [hpass] at hp
  have hinit : ∀ q ∈ initPlans relays, syncFree q.2 := by
    intro q hq
    unfold initPlans at hq
    obtain ⟨r0, _, hq⟩ := List.mem_map.mp hq
    rw [← hq]
    exact ⟨rfl, rfl, rfl, rfl, rfl, rfl, rfl⟩
  have hall : ∀ q ∈ versionPass relayEvents versionMap sourceRelays rvs relays
      (initPlans relays), syncFree q.2 :=
    foldl_preserve
      (fun acc x => versionStep_syncFree relayEvents sourceRelays rvs relays
        horphan acc x)
      versionMap (initPlans relays) hinit
  obtain ⟨q, hq, hqv⟩ := alGet_mem hp
  obtain ⟨h1, h2, h3, h4, h5, h6, _⟩ := hqv ▸ hall q hq
  exact ⟨h1, h2, h3, h4, h5, h6⟩

/-- C2, witness for `claim2_amended`: the orphaned fixture `rev2` satisfies
the hypotheses, and relay A's plan (which deletes exactly the orphaned site
index) publishes nothing and deletes no manifests or assets. -/
theorem claim2_amended_witness :
    (∀ q ∈ identifySourceRelays
        (analyzeVersionCompleteness rev2 (analyzeSiteIndexVersions rev2) rel1).2,
      q.2 = (none : Option String)) ∧
    (RelayPlan.syncAssets { deleteIncompleteSiteIndexes := [siteIndex9] } = [] ∧
     RelayPlan.syncManifests { deleteIncompleteSiteIndexes := [siteIndex9] } = [] ∧
     RelayPlan.syncSiteIndexes { deleteIncompleteSiteIndexes := [siteIndex9] } = [] ∧
     RelayPlan.syncNewEntrypoint { deleteIncompleteSiteIndexes := [siteIndex9] } = none ∧
     RelayPlan.deleteOrphanedAssets { deleteIncompleteSiteIndexes := [siteIndex9] } = [] ∧
     RelayPlan.deleteOrphanedManifests { deleteIncompleteSiteIndexes := [siteIndex9] } = []) :=
  ⟨by decide,
   claim2_amended rev2 (analyzeSiteIndexVersions rev2)
     (identifySourceRelays
       (analyzeVersionCompleteness rev2 (analyzeSiteIndexVersions rev2) rel1).2)
     (analyzeEntrypoints rev2)
     (analyzeVersionCompleteness rev2 (analyzeSiteIndexVersions rev2) rel1).1
     rel1 "sk" 100 (by decide) (by decide) "wss://A"
     { deleteIncompleteSiteIndexes := [siteIndex9] } (by decide)⟩

/-! ## Claim C3 -/

theorem versionTargetUpdate_syncNE (statusOpt : Option VStatus) (si : NEvent)
    (ms as_ : List NEvent) (p : RelayPlan) :
    (versionTargetUpdate statusOpt si ms as_ p).syncNewEntrypoint =
      p.syncNewEntrypoint := by
  unfold versionTargetUpdate
  cases statusOpt with
  | none => rfl
  | some status =>
      dsimp only
      split
      · rfl
      · split
        · rfl
        · rfl

theorem versionStep_syncNE (relayEvents : List (String × List NEvent))
    (sourceRelays : List (String × Option String))
    (rvs : List (String × List (String × VStatus))) (relays : List String)
    (plans : List (String × RelayPlan)) (entry : String × VersionInfo)
    (h : ∀ q ∈ plans, q.2.syncNewEntrypoint = none) :
    ∀ q ∈ versionStep relayEvents sourceRelays rvs relays plans entry,
      q.2.syncNewEntrypoint = none := by
  unfold versionStep
  dsimp only
  cases (alGet sourceRelays entry.1).getD none with
  | none =>
      dsimp only
      refine foldl_preserve
        (P := fun pl => ∀ q ∈ pl, q.2.syncNewEntrypoint = none) ?_ relays plans h
      intro acc relay hacc
      cases statusOf rvs relay entry.1 with
      | none => exact hacc
      | some status =>
          by_cases hsi : status.hasSiteIndex
          · simp only [hsi, if_true]
            cases entry.2.siteIndexes.find? (fun si => si.relay == relay) with
            | none => simpa using hacc
            | some si =>
                refine alModify_preserve
                  (Q := fun p => p.syncNewEntrypoint = none) ?_ hacc
                intro p hp
                simpa using hp
          · simp only [hsi, Bool.false_eq_true, if_false]
            simpa using hacc
  | some sourceRelay =>
      dsimp only
      cases entry.2.siteIndexes.find? (fun si => si.relay == sourceRelay) with
      | none => simpa using h
      | some sourceSiteIndex =>
          dsimp only
          refine foldl_preserve
            (P := fun pl => ∀ q ∈ pl, q.2.syncNewEntrypoint = none) ?_ relays plans h
          intro acc targetRelay hacc
          by_cases htgt : (targetRelay == sourceRelay) = true
          · simpa [htgt] using hacc
          · simp only [htgt, Bool.false_eq_true, if_false]
            refine alModify_preserve
              (Q := fun p => p.syncNewEntrypoint = none) ?_ hacc
            intro p hp
            rw [versionTargetUpdate_syncNE]
            exact hp

theorem entrypointUpdate_syncNE (epa : EPAnalysis) (ne : NEvent) (tgt : String)
    (skHex : String) (now : Nat) (relay : String) (p : RelayPlan) :
    (entrypointUpdate epa ne tgt skHex now relay p).syncNewEntrypoint =
        p.syncNewEntrypoint ∨
      (entrypointUpdate epa ne tgt skHex now relay p).syncNewEntrypoint =
        some ne := by
  unfold entrypointUpdate
  dsimp only
  split <;> split <;> simp

/-- C3, counterexample.  `rev3` holds a single entrypoint `entry1` whose
address tag names site-index key `x`, while no site-index event exists on
any relay at all (the version table is empty), so no relay is a complete
custodian of the target; the Plan Builder nevertheless schedules `entry1`
for publication to relay B, refuting "an entrypoint whose target site-index
key has no complete custodian anywhere is never scheduled for publication". -/
theorem claim3_counterexample :
    analyzeSiteIndexVersions rev3 = [] ∧
    (analyzeEntrypoints rev3).targetSiteIndexDTag = some "x" ∧
    alGet (buildPlanFromEvents rev3 rel1 "sk" 100) "wss://B" =
      some { syncNewEntrypoint := some entry1 } := by
  refine ⟨by decide, by decide, by decide⟩

/-- C3, amended.  The Plan Builder performs no completeness check on the
entrypoint's target: every entrypoint it schedules for publication to any
relay is simply the globally newest entrypoint found by the analyzer,
scheduled on the relays lacking a live entrypoint with the target key,
whether or not any relay completely holds the referenced site index. -/
theorem claim3_amended (relayEvents : List (String × List NEvent))
    (versionMap : List (String × VersionInfo))
    (sourceRelays : List (String × Option String)) (epa : EPAnalysis)
    (rvs : List (String × List (String × VStatus))) (relays : List String)
    (skHex : String) (now : Nat) (r : String) (p : RelayPlan)
    (hp : alGet (buildSyncPlan relayEvents versionMap sourceRelays epa rvs
        relays skHex now) r = some p) :
    p.syncNewEntrypoint = none ∨ p.syncNewEntrypoint = epa.newestEntrypoint := by
  have hinit : ∀ q ∈ initPlans relays, q.2.syncNewEntrypoint = none := by
    intro q hq
    obtain ⟨r0, _, hq⟩ := List.mem_map.mp hq
    rw [← hq]
    rfl
  have hbase : ∀ q ∈ versionPass relayEvents versionMap sourceRelays rvs relays
      (initPlans relays), q.2.syncNewEntrypoint = none :=
    foldl_preserve
      (fun acc x => versionStep_syncNE relayEvents sourceRelays rvs relays acc x)
      versionMap (initPlans relays) hinit
  unfold buildSyncPlan entrypointPass at hp
  cases hne : epa.newestEntrypoint with
  | none =>
      rw [hne] at hp
      obtain ⟨q, hq, hqv⟩ := alGet_mem hp
      exact Or.inl (hqv ▸ hbase q hq)
  | some ne =>
      cases htg : epa.targetSiteIndexDTag with
      | none =>
          rw [hne, htg] at hp
          obtain ⟨q, hq, hqv⟩ := alGet_mem hp
          exact Or.inl (hqv ▸ hbase q hq)
      | some tgt =>
          rw [hne, htg] at hp
          obtain ⟨q, hq, hqv⟩ := alGet_mem hp
          obtain ⟨q0, hq0, hq0v⟩ := List.mem_map.mp hq
          have hdisj := entrypointUpdate_syncNE epa ne tgt skHex now q0.1 q0.2
          have hpq : p = entrypointUpdate epa ne tgt skHex now q0.1 q0.2 := by
            rw [← hqv, ← hq0v]
          rcases hdisj with hsame | hset
          · exact Or.inl (by rw [hpq, hsame]; exact hbase q0 hq0)
          · exact Or.inr (by rw [hpq, hset])

/-- C3, witness for `claim3_amended`: on `rev3` the plan for relay B
schedules exactly the analyzer's newest entrypoint. -/
theorem claim3_amended_witness :
    alGet (buildSyncPlan rev3 (analyzeSiteIndexVersions rev3)
        (identifySourceRelays
          (analyzeVersionCompleteness rev3 (analyzeSiteIndexVersions rev3) rel1).2)
        (analyzeEntrypoints rev3)
        (analyzeVersionCompleteness rev3 (analyzeSiteIndexVersions rev3) rel1).1
        rel1 "sk" 100) "wss://B" =
      some { syncNewEntrypoint := some entry1 } ∧
    (RelayPlan.syncNewEntrypoint { syncNewEntrypoint := some entry1 } = none ∨
     RelayPlan.syncNewEntrypoint { syncNewEntrypoint := some entry1 } =
       (analyzeEntrypoints rev3).newestEntrypoint) :=
  ⟨by decide,
   claim3_amended rev3 (analyzeSiteIndexVersions rev3)
     (identifySourceRelays
       (analyzeVersionCompleteness rev3 (analyzeSiteIndexVersions rev3) rel1).2)
     (analyzeEntrypoints rev3)
     (analyzeVersionCompleteness rev3 (analyzeSiteIndexVersions rev3) rel1).1
     rel1 "sk" 100 "wss://B" { syncNewEntrypoint := some entry1 } (by decide)⟩

/-! ## Claim C4 -/

theorem mem_insertByKind {x e : NEvent} {l : List NEvent} :
    x ∈ insertByKind e l ↔ x = e ∨ x ∈ l := by
  induction l with
  | nil => simp [insertByKind]
  | cons y ys ih =>
      unfold insertByKind
      by_cases hlt : kindOrderOf y.kind < kindOrderOf e.kind
      · rw [if_pos hlt, List.mem_cons, ih, List.mem_cons]
        tauto
      · rw [if_neg hlt, List.mem_cons, List.mem_cons]

theorem sorted_insertByKind {e : NEvent} {l : List NEvent}
    (h : List.Sorted (fun a b => kindOrderOf a.kind ≤ kindOrderOf b.kind) l) :
    List.Sorted (fun a b => kindOrderOf a.kind ≤ kindOrderOf b.kind)
      (insertByKind e l) := by
  induction l with
  | nil => simp [insertByKind]
  | cons y ys ih =>
      rw [List.sorted_cons] at h
      obtain ⟨hy, hys⟩ := h
      unfold insertByKind
      by_cases hlt : kindOrderOf y.kind < kindOrderOf e.kind
      · rw [if_pos hlt, List.sorted_cons]
        refine ⟨?_, ih hys⟩
        intro b hb
        rcases mem_insertByKind.mp hb with hb | hb
        · exact hb ▸ Nat.le_of_lt hlt
        · exact hy b hb
      · rw [if_neg hlt, List.sorted_cons]
        refine ⟨?_, List.sorted_cons.mpr ⟨hy, hys⟩⟩
        intro b hb
        rcases List.mem_cons.mp hb with hb | hb
        · exact hb ▸ Nat.le_of_not_lt hlt
        · exact Nat.le_trans (Nat.le_of_not_lt hlt) (hy b hb)

theorem mem_sortEventsForPublish {x : NEvent} {l : List NEvent} :
    x ∈ sortEventsForPublish l ↔ x ∈ l := by
  induction l with
  | nil => simp [sortEventsForPublish]
  | cons y ys ih =>
      unfold sortEventsForPublish
      rw [mem_insertByKind, ih, List.mem_cons]

theorem sorted_sortEventsForPublish (l : List NEvent) :
    List.Sorted (fun a b => kindOrderOf a.kind ≤ kindOrderOf b.kind)
      (sortEventsForPublish l) := by
  induction l with
  | nil => simp [sortEventsForPublish]
  | cons y ys ih => exact sorted_insertByKind ih

/-- C4.  Confirmed: the publish sort of the executor orders every relay's
publication list bottom-up by graph layer.  For a list of content-graph
events (the four protocol kinds, which is what every generated plan
contains), the sorted list is non-decreasing in layer number — every asset
(layer 1) precedes every manifest (layer 2), every manifest precedes every
site index (layer 3) — hence a manifest appears after all asset events it
references that occur in the list, and everything after an entrypoint
(layer 4) is itself an entrypoint, so the entrypoint comes last. -/
theorem claim4_publish_order (l : List NEvent)
    (hk : ∀ e ∈ l, e.kind = ASSET_KIND ∨ e.kind = MANIFEST_KIND ∨
      e.kind = SITE_INDEX_KIND ∨ e.kind = ENTRYPOINT_KIND) :
    List.Pairwise (fun a b => kindOrderOf a.kind ≤ kindOrderOf b.kind)
      (sortEventsForPublish l) ∧
    List.Pairwise (fun a b => a.kind = ENTRYPOINT_KIND → b.kind = ENTRYPOINT_KIND)
      (sortEventsForPublish l) := by
  have hsorted := sorted_sortEventsForPublish l
  refine ⟨hsorted, ?_⟩
  refine List.Pairwise.imp_of_mem ?_ hsorted
  intro a b _ hbmem hab hep
  have hb := hk b (mem_sortEventsForPublish.mp hbmem)
  rw [hep] at hab
  have ha4 : kindOrderOf ENTRYPOINT_KIND = 4 := by decide
  rw [ha4] at hab
  rcases hb with hb | hb | hb | hb
  · rw [hb] at hab; exact absurd hab (by decide)
  · rw [hb] at hab; exact absurd hab (by decide)
  · rw [hb] at hab; exact absurd hab (by decide)
  · exact hb

/-- C4, witness: a shuffled concrete publish list (manifest, asset,
entrypoint, site index) satisfies the kind hypothesis and the ordering
conclusion. -/
theorem claim4_witness :
    (∀ e ∈ [manifest1, asset1, entry1, siteIndex1], e.kind = ASSET_KIND ∨
      e.kind = MANIFEST_KIND ∨ e.kind = SITE_INDEX_KIND ∨
      e.kind = ENTRYPOINT_KIND) ∧
    (List.Pairwise (fun a b => kindOrderOf a.kind ≤ kindOrderOf b.kind)
      (sortEventsForPublish [manifest1, asset1, entry1, siteIndex1]) ∧
    List.Pairwise (fun a b => a.kind = ENTRYPOINT_KIND → b.kind = ENTRYPOINT_KIND)
      (sortEventsForPublish [manifest1, asset1, entry1, siteIndex1])) :=
  ⟨by decide, claim4_publish_order [manifest1, asset1, entry1, siteIndex1] (by decide)⟩

/-! ## Claim C5 -/

/-- C5.  Confirmed: within one relay's repair, the executor issues every
planned deletion (each awaited, so its success or failure is observed)
before any publication is attempted.  In the relay's action trace, any
publish action sits strictly after every delete action. -/
theorem claim5_deletions_first (p : RelayPlan) (connOk : Bool) (i j : Nat)
    (a b : RelayAction)
    (ha : (relayActions p connOk)[i]? = some a) (hpa : a.isPublish = true)
    (hb : (relayActions p connOk)[j]? = some b) (hdb : b.isDelete = true) :
    j < i := by
  unfold relayActions at ha hb
  by_cases hskip : ((planDeletions p).isEmpty && (planSyncs p).isEmpty) = true
  · rw [if_pos hskip] at ha
    exact absurd ha (by simp)
  · rw [if_neg hskip] at ha hb
    cases connOk with
    | false => exact absurd ha (by simp)
    | true =>
        simp only [if_true] at ha hb
        set dels := (planDeletions p).map RelayAction.deleteEvt with hdels
        have hige : dels.length ≤ i := by
          by_contra hlt
          rw [List.getElem?_append_left (Nat.lt_of_not_le hlt), hdels,
            List.getElem?_map] at ha
          obtain ⟨e, _, hae⟩ := Option.map_eq_some'.mp ha
          rw [← hae] at hpa
          exact absurd hpa (by simp [RelayAction.isPublish])
        have hjlt : j < dels.length := by
          by_contra hge
          rw [List.getElem?_append_right (Nat.le_of_not_lt hge),
            List.getElem?_map] at hb
          obtain ⟨e, _, hbe⟩ := Option.map_eq_some'.mp hb
          rw [← hbe] at hdb
          exact absurd hdb (by simp [RelayAction.isDelete])
        exact Nat.lt_of_lt_of_le hjlt hige

/-- A two-action plan used by the C5 witness: one site-index deletion, one
asset publication. -/
def onePlusOnePlan : RelayPlan :=
  { deleteIncompleteSiteIndexes := [siteIndex9], syncAssets := [asset1] }

/-- C5, witness: with a live connection, `onePlusOnePlan`'s trace is
delete-then-publish, and the theorem places the publish (index 1) after the
delete (index 0). -/
theorem claim5_witness :
    (relayActions onePlusOnePlan true)[1]? =
      some (RelayAction.publishEvt asset1) ∧
    (relayActions onePlusOnePlan true)[0]? =
      some (RelayAction.deleteEvt siteIndex9) ∧
    (0 : Nat) < 1 :=
  ⟨by decide, by decide,
   claim5_deletions_first onePlusOnePlan true 1 0
     (.publishEvt asset1) (.deleteEvt siteIndex9)
     (by decide) (by decide) (by decide) (by decide)⟩

/-! ## Claim C9 -/

/-- C9.  Confirmed: a relay connection failure never aborts the overall
reconciliation.  When connecting to relay `r` fails, the executor charges
that relay's entire planned delta (all its deletions and publications) to
`totalFailed` and continues with exactly the remaining relays; and a relay
unreachable during the initial query contributes the empty event list. -/
theorem claim9_connection_failure (plans : List (String × RelayPlan))
    (conn : String → Bool) (pub : String → NEvent → Bool) (r : String)
    (rest : List String) (s : SyncStats) (p : RelayPlan)
    (hconn : conn r = false) (hp : alGet plans r = some p) :
    executeSyncPlanGo plans conn pub (r :: rest) s =
      executeSyncPlanGo plans conn pub rest
        { s with totalFailed := s.totalFailed + (planDeletions p).length +
            (planSyncs p).length } ∧
    queryAllEvents none = [] := by
  refine ⟨?_, rfl⟩
  show executeSyncPlanGo plans conn pub rest (execRelayStep plans conn pub r s) = _
  congr 1
  unfold execRelayStep
  rw [hp]
  dsimp only
  by_cases hskip : ((planDeletions p).isEmpty && (planSyncs p).isEmpty) = true
  · rw [if_pos hskip]
    rw [Bool.and_eq_true] at hskip
    have h1 : planDeletions p = [] := List.isEmpty_iff.mp hskip.1
    have h2 : planSyncs p = [] := List.isEmpty_iff.mp hskip.2
    rw [h1, h2]
    simp
  · rw [if_neg hskip, hconn]
    rfl

/-- C9, witness: a one-relay plan with one pending publication, an always
failing connection, and zero starting stats — the step charges the single
event to `totalFailed` and recursion proceeds with the empty remainder. -/
theorem claim9_witness :
    executeSyncPlanGo [("wss://A", { syncAssets := [asset1] })]
        (fun _ => false) (fun _ _ => true) ["wss://A"]
        { totalDeleted := 0, totalPublished := 0, totalFailed := 0,
          relaysUpdated := 0 } =
      executeSyncPlanGo [("wss://A", { syncAssets := [asset1] })]
        (fun _ => false) (fun _ _ => true) []
        { totalDeleted := 0, totalPublished := 0,
          totalFailed := 0 + (planDeletions { syncAssets := [asset1] }).length +
            (planSyncs { syncAssets := [asset1] }).length,
          relaysUpdated := 0 } ∧
    queryAllEvents none = [] :=
  claim9_connection_failure [("wss://A", { syncAssets := [asset1] })]
    (fun _ => false) (fun _ _ => true) "wss://A" []
    { totalDeleted := 0, totalPublished := 0, totalFailed := 0, relaysUpdated := 0 }
    { syncAssets := [asset1] } rfl (by decide)

/-! ## Claim C10 -/

theorem deleteBatchesGo_sum (outcome : Nat → BatchOutcome) (total : Nat) :
    ∀ (n : Nat) (ids : List String) (k published failed : Nat),
      ids.length ≤ n → published + failed + ids.length = total →
      (deleteBatchesGo outcome total ids k published failed).1 +
        (deleteBatchesGo outcome total ids k published failed).2 = total := by
  intro n
  induction n with
  | zero =>
      intro ids k published failed hlen hinv
      have : ids = [] := List.eq_nil_of_length_eq_zero (Nat.le_zero.mp hlen)
      subst this
      simpa [deleteBatchesGo] using hinv
  | succ n ih =>
      intro ids k published failed hlen hinv
      cases ids with
      | nil => simpa [deleteBatchesGo] using hinv
      | cons h t =>
          rw [deleteBatchesGo]
          have hlc : (h :: t).length = t.length + 1 := List.length_cons h t
          have hlen10 : ((h :: t).take 10).length + ((h :: t).drop 10).length =
              (h :: t).length := by
            rw [List.length_take, List.length_drop]
            omega
          have hrest : ((h :: t).drop 10).length ≤ n := by
            rw [List.length_drop]
            omega
          cases outcome k with
          | ok =>
              dsimp only
              exact ih ((h :: t).drop 10) (k + 1)
                (published + ((h :: t).take 10).length) failed hrest (by omega)
          | pubFail =>
              dsimp only
              exact ih ((h :: t).drop 10) (k + 1) published
                (failed + ((h :: t).take 10).length) hrest (by omega)
          | crash =>
              dsimp only
              omega

/-- C10.  Confirmed: `deleteEventsFromRelay` always resolves to a pair of
counts summing to the number of requested ids — connection failures,
per-batch publish rejections, and exceptions escaping a batch (tombstone
construction and the like, landing in the outer catch) all preserve the
accounting — and an empty id list yields `(0, 0)`. -/
theorem claim10_delete_counts (eventIds : List String) (connOk : Bool)
    (outcome : Nat → BatchOutcome) :
    (deleteEventsFromRelay eventIds connOk outcome).1 +
      (deleteEventsFromRelay eventIds connOk outcome).2 = eventIds.length ∧
    (eventIds = [] → deleteEventsFromRelay eventIds connOk outcome = (0, 0)) := by
  constructor
  · unfold deleteEventsFromRelay
    by_cases hnil : eventIds.isEmpty = true
    · rw [if_pos hnil]
      rw [List.isEmpty_iff] at hnil
      simp [hnil]
    · rw [if_neg hnil]
      cases connOk with
      | true =>
          simp only [if_true]
          exact deleteBatchesGo_sum outcome eventIds.length eventIds.length
            eventIds 0 0 0 (Nat.le_refl _) (by omega)
      | false => simp
  · intro hnil
    subst hnil
    rfl

/-- C10, witness: twelve ids over a live connection whose first batch is
acknowledged and whose second is rejected — the counts sum to twelve, and
the empty-list clause holds vacuously for this non-empty input. -/
theorem claim10_witness :
    (deleteEventsFromRelay ["i1", "i2", "i3", "i4", "i5", "i6", "i7", "i8",
        "i9", "i10", "i11", "i12"] true
        (fun k => if k == 0 then BatchOutcome.ok else BatchOutcome.pubFail)).1 +
      (deleteEventsFromRelay ["i1", "i2", "i3", "i4", "i5", "i6", "i7", "i8",
        "i9", "i10", "i11", "i12"] true
        (fun k => if k == 0 then BatchOutcome.ok else BatchOutcome.pubFail)).2 =
      (["i1", "i2", "i3", "i4", "i5", "i6", "i7", "i8", "i9", "i10", "i11",
        "i12"] : List String).length ∧
    ((["i1", "i2", "i3", "i4", "i5", "i6", "i7", "i8", "i9", "i10", "i11",
        "i12"] : List String) = [] →
      deleteEventsFromRelay ["i1", "i2", "i3", "i4", "i5", "i6", "i7", "i8",
        "i9", "i10", "i11", "i12"] true
        (fun k => if k == 0 then BatchOutcome.ok else BatchOutcome.pubFail) =
        (0, 0)) :=
  claim10_delete_counts _ true _

/-! ## Claim C6 -/

theorem eTagIds_eq_of_tags_eq {e f : NEvent} (h : e.tags = f.tags) :
    eTagIds e = eTagIds f := by
  unfold eTagIds
  rw [h]

theorem manifestFound_mono {old new : List NEvent}
    (hsub : ∀ e ∈ old, e ∈ new) {m : String}
    (h : manifestFound old m = true) : manifestFound new m = true := by
  unfold manifestFound findManifest at h ⊢
  rw [List.find?_isSome] at h ⊢
  obtain ⟨x, hx, hpx⟩ := h
  exact ⟨x, hsub x hx, hpx⟩

theorem assetFound_mono {old new : List NEvent}
    (hsub : ∀ e ∈ old, e ∈ new) {a : String}
    (h : assetFound old a = true) : assetFound new a = true := by
  unfold assetFound at h ⊢
  rw [List.any_eq_true] at h ⊢
  obtain ⟨x, hx, hpx⟩ := h
  exact ⟨x, hsub x hx, hpx⟩

theorem findManifest_spec {events : List NEvent} {m : String} {e : NEvent}
    (h : findManifest events m = some e) :
    e ∈ events ∧ e.kind = MANIFEST_KIND ∧ e.id = m := by
  refine ⟨List.mem_of_find?_eq_some h, ?_, ?_⟩
  · have hpred := List.find?_some h
    rw [Bool.and_eq_true] at hpred
    exact beq_iff_eq.mp hpred.1
  · have hpred := List.find?_some h
    rw [Bool.and_eq_true] at hpred
    exact beq_iff_eq.mp hpred.2

theorem presentManifest_tags_eq {old new : List NEvent}
    (hsub : ∀ e ∈ old, e ∈ new)
    (htags : ∀ e ∈ new, ∀ f ∈ new, e.kind = MANIFEST_KIND →
      f.kind = MANIFEST_KIND → e.id = f.id → e.tags = f.tags)
    (mids : List String) (hall : ∀ m ∈ mids, manifestFound old m = true) :
    (presentManifestEvents old mids).map eTagIds =
      (presentManifestEvents new mids).map eTagIds := by
  induction mids with
  | nil => rfl
  | cons m ms ih =>
      have hmo : manifestFound old m = true := hall m (List.mem_cons_self m ms)
      have hmn : manifestFound new m = true := manifestFound_mono hsub hmo
      unfold presentManifestEvents at ih ⊢
      rw [List.filterMap_cons, List.filterMap_cons]
      cases ho : findManifest old m with
      | none => rw [manifestFound, ho] at hmo; exact absurd hmo (by simp)
      | some e1 =>
          cases hn : findManifest new m with
          | none => rw [manifestFound, hn] at hmn; exact absurd hmn (by simp)
          | some e2 =>
              obtain ⟨he1mem, he1k, he1id⟩ := findManifest_spec ho
              obtain ⟨he2mem, he2k, he2id⟩ := findManifest_spec hn
              have htag : e1.tags = e2.tags :=
                htags e1 (hsub _ he1mem) e2 he2mem he1k he2k
                  (by rw [he1id, he2id])
              rw [List.map_cons, List.map_cons, eTagIds_eq_of_tags_eq htag]
              rw [ih (fun x hx => hall x (List.mem_cons_of_mem m hx))]

/-- C6.  Confirmed: version completeness on a relay is monotone in that
relay's queried event set.  If the relay's old event list is contained in
the new one — and, as the data model guarantees (an event id is a
content-derived hash, so two manifest events with the same id carry the same
tags), ids are unambiguous on the new list — then a version complete on the
old list stays complete on the new one: presence checks are existential, and
the asset set required by the (then fully present) manifests is unchanged. -/
theorem claim6_completeness_monotone (vi : VersionInfo) (relay : String)
    (old new : List NEvent)
    (hsub : ∀ e ∈ old, e ∈ new)
    (htags : ∀ e ∈ new, ∀ f ∈ new, e.kind = MANIFEST_KIND →
      f.kind = MANIFEST_KIND → e.id = f.id → e.tags = f.tags)
    (hold : completeOnRelay vi relay old = true) :
    completeOnRelay vi relay new = true := by
  unfold completeOnRelay at hold ⊢
  rw [Bool.and_eq_true] at hold ⊢
  obtain ⟨hSI, hcomp⟩ := hold
  refine ⟨hSI, ?_⟩
  unfold versionStatusOn at hcomp ⊢
  rw [hSI] at hcomp ⊢
  rw [if_pos rfl] at hcomp ⊢
  unfold statusComplete at hcomp ⊢
  dsimp only at hcomp ⊢
  rw [Bool.and_eq_true, beq_iff_eq, beq_iff_eq] at hcomp
  obtain ⟨hman, hass⟩ := hcomp
  have hallm : ∀ m ∈ vi.manifestIds, manifestFound old m = true := by
    have := List.countP_eq_length.mp hman
    intro m hm
    simpa using this m hm
  have hreq : requiredAssetsOf new vi.manifestIds =
      requiredAssetsOf old vi.manifestIds := by
    unfold requiredAssetsOf
    rw [presentManifest_tags_eq hsub htags vi.manifestIds hallm]
  have halla : ∀ a ∈ requiredAssetsOf old vi.manifestIds,
      assetFound old a = true := by
    have := List.countP_eq_length.mp hass
    intro a ha
    simpa using this a ha
  rw [Bool.and_eq_true, beq_iff_eq, beq_iff_eq]
  constructor
  · refine List.countP_eq_length.mpr ?_
    intro m hm
    simpa using manifestFound_mono hsub (hallm m hm)
  · rw [hreq]
    refine List.countP_eq_length.mpr ?_
    intro a ha
    simpa using assetFound_mono hsub (halla a ha)

/-- The occurrence of `siteIndex1` on relay A, as the analyzer records it. -/
def siOcc1 : SiteIndexOcc :=
  { relay := "wss://A", event := siteIndex1, dTag := some "d1", eventId := "si1" }

/-- The version record of version 1.0.0 as the analyzer derives it from
`rev1`, used by the C6 witness. -/
def versionInfo1 : VersionInfo :=
  { version := "1.0.0"
    siteIndexes := [siOcc1]
    routes := [("/", "m1")]
    manifestIds := ["m1"] }

/-- C6, witness: relay A's complete event set for version 1.0.0, extended
with one further (unrelated) asset event, stays complete. -/
theorem claim6_witness :
    (∀ e ∈ [asset1, asset2, asset3, manifest1, siteIndex1],
      e ∈ [asset1, asset2, asset3, manifest1, siteIndex1, asset9]) ∧
    completeOnRelay versionInfo1 "wss://A"
      [asset1, asset2, asset3, manifest1, siteIndex1, asset9] = true :=
  ⟨by decide,
   claim6_completeness_monotone versionInfo1 "wss://A"
     [asset1, asset2, asset3, manifest1, siteIndex1]
     [asset1, asset2, asset3, manifest1, siteIndex1, asset9]
     (by decide) (by decide) (by decide)⟩

/-! ## Claim C7 -/

/-- Blank out the clock-dependent fields of a tombstone: `created_at` (the
`Date.now()` reading) and `id` (derived from it by the signer). -/
def stripTombstoneClock (e : NEvent) : NEvent :=
  { e with created_at := 0, id := "" }

/-- A plan with the clock-dependent fields of its entrypoint tombstones
blanked out. -/
def stripPlanClock (p : RelayPlan) : RelayPlan :=
  { p with deleteOldEntrypoints := p.deleteOldEntrypoints.map stripTombstoneClock }

/-- C7, counterexample.  `buildSyncPlan` reads the wall clock
(`Date.now()` inside `createDeletionEvent`) when it signs the tombstone for
a stale entrypoint; two runs on the same analyzer output one second apart
therefore produce different plans (the tombstones differ in `created_at`,
hence in id and signature), refuting "running the Plan Builder twice yields
an identical plan for every relay". -/
theorem claim7_counterexample :
    buildPlanFromEvents rev7 ["wss://A"] "sk" 0 ≠
      buildPlanFromEvents rev7 ["wss://A"] "sk" 1 := by
  decide

theorem stripPlanClock_entrypointUpdate (epa : EPAnalysis) (ne : NEvent)
    (tgt : String) (skHex : String) (t1 t2 : Nat) (relay : String)
    (p : RelayPlan) :
    stripPlanClock (entrypointUpdate epa ne tgt skHex t1 relay p) =
      stripPlanClock (entrypointUpdate epa ne tgt skHex t2 relay p) := by
  unfold entrypointUpdate
  dsimp only
  split <;> split <;>
    simp [stripPlanClock, stripTombstoneClock, createDeletionEvent]

/-- C7, amended.  The Plan Builder is a pure function of the analyzer
output, the private key, and the clock reading taken when signing
entrypoint tombstones: two runs on the same analyzer output agree exactly,
except that the entrypoint-deletion tombstones may carry different
`created_at` readings (and hence ids); blanking those two fields makes the
plans of any two runs — at any two clock readings — identical, so in
particular two runs within the same clock second yield identical plans. -/
theorem claim7_amended (relayEvents : List (String × List NEvent))
    (versionMap : List (String × VersionInfo))
    (sourceRelays : List (String × Option String)) (epa : EPAnalysis)
    (rvs : List (String × List (String × VStatus))) (relays : List String)
    (skHex : String) (t1 t2 : Nat) :
    (buildSyncPlan relayEvents versionMap sourceRelays epa rvs relays skHex
        t1).map (fun q => (q.1, stripPlanClock q.2)) =
      (buildSyncPlan relayEvents versionMap sourceRelays epa rvs relays skHex
        t2).map (fun q => (q.1, stripPlanClock q.2)) := by
  unfold buildSyncPlan entrypointPass
  cases hne : epa.newestEntrypoint with
  | none => rfl
  | some ne =>
      cases htg : epa.targetSiteIndexDTag with
      | none => rfl
      | some tgt =>
          rw [List.map_map, List.map_map]
          refine List.map_congr_left ?_
          intro q _
          show (q.1, stripPlanClock (entrypointUpdate epa ne tgt skHex t1 q.1 q.2)) =
            (q.1, stripPlanClock (entrypointUpdate epa ne tgt skHex t2 q.1 q.2))
          rw [stripPlanClock_entrypointUpdate epa ne tgt skHex t1 t2 q.1 q.2]

/-! ## Claim C8 -/

/-- C8.  The claim matches the spec and the repository's own changelog
("Fixed site index → manifest reference lookup ... was looking in 'e' tags
instead of JSON content", recorded as Critical and applied only to
`delete-orphans.mjs`), but `analyzeOrphans` in
`src/src/lib/cleanup-utils.mjs` — the orphan analysis the cleanup command
imports — still collects referenced manifests from the site-index's `e`
tags.  Site-index events carry no `e` tags (`createSiteIndexEvent` emits
only a `d` tag; routes live in the JSON content), so on a relay holding an
entrypoint, the site index it references (whose routes name `manifest1`),
that manifest, and its asset, the analysis reports both the
routes-referenced manifest and its asset as orphans while correctly
treating the site index as referenced. -/
theorem claim8_code_behavior :
    siteIndex1.content = ContentData.obj (some "1.0.0") [("/", "m1")] ∧
    manifest1.id = "m1" ∧
    (analyzeOrphans [entry8, siteIndex1, manifest1, asset1]).indexes = [] ∧
    (analyzeOrphans [entry8, siteIndex1, manifest1, asset1]).manifests =
      [manifest1] := by
  refine ⟨rfl, rfl, by decide, by decide⟩

end NwPublisher

